import Mathlib

/-!
Shallow embedding of `broken-links-checker` (link_checker.py, sandbox.py).

The external collaborators (Playwright page rendering, BeautifulSoup anchor
extraction, urljoin resolution, sandbox provisioning) are modelled as an
oracle `Env`; everything else is translated function-by-function from
`link_checker.py`.  Exceptions raised by the renderer are modelled as
`Except String` values; the engine loop is modelled with explicit fuel
(a `while` loop in the source), and all safety theorems hold for every fuel.
-/

/-! ### urllib.parse.urlparse — netloc extraction (used by is_internal_link) -/

/-- Characters allowed in a URL scheme after the leading letter
(urllib's `scheme_chars`). -/
def isSchemeChar (c : Char) : Bool :=
  c.isAlphanum || c == '+' || c == '-' || c == '.'

/-- Consume scheme characters up to a colon; `none` if a non-scheme character
appears before any colon (then urlparse treats the URL as scheme-less). -/
def schemeRest : List Char → Option (List Char)
  | [] => none
  | c :: cs => if c == ':' then some cs else if isSchemeChar c then schemeRest cs else none

/-- Drop a leading `scheme:` if present, as `urlparse` does: the first
character must be a letter and everything before the first colon must be a
scheme character. -/
def dropScheme (cs : List Char) : List Char :=
  match cs with
  | [] => []
  | c :: rest =>
    if c.isAlpha then
      match schemeRest rest with
      | some tail => tail
      | none => cs
    else cs

/-- After `//`, the netloc extends up to the first `/`, `?` or `#`. -/
def netlocChars (cs : List Char) : List Char :=
  cs.takeWhile (fun c => !(c == '/' || c == '?' || c == '#'))

/-- `urlparse(url).netloc`: present only when (after an optional scheme) the
URL continues with `//`. -/
def netlocOf (url : String) : String :=
  match dropScheme url.data with
  | '/' :: '/' :: rest => String.mk (netlocChars rest)
  | _ => ""

/-! ### Data model (link_checker.py lines 40-63) -/

/-- `LinkResult` dataclass: the result of checking one link. -/
structure LinkResult where
  url : String
  status : Nat
  status_text : String
  is_broken : Bool
  parent_page : String
  error_message : String
deriving DecidableEq, Repr

/-- Configuration of a `LinkChecker` instance (constructor arguments that the
claims depend on). -/
structure Checker where
  base_url : String
  provider : String
  max_pages : Nat
deriving DecidableEq, Repr

/-- `self.base_domain = urlparse(base_url).netloc` (line 57). -/
def Checker.base_domain (c : Checker) : String :=
  netlocOf c.base_url

/-- `is_internal_link` (lines 65-68): netloc empty or equal to the base
domain. -/
def Checker.is_internal_link (c : Checker) (url : String) : Bool :=
  netlocOf url == "" || netlocOf url == c.base_domain

/-! ### The external-collaborator oracle -/

/-- The injected environment: sandbox provisioning outcome, the renderer
(`page.goto` + `page.content()` collapsed into one navigation outcome), the
anchor-href extractor (BeautifulSoup `find_all('a', href=True)`) and relative
URL resolution (`urljoin`).  All are deterministic oracles. -/
structure Env where
  session : Except String Unit
  nav : String → Except String String
  hrefs : String → List String
  join : String → String → String

/-- `extract_links` (lines 70-83): resolve every href against the current URL
and keep the internal ones, in document order. -/
def Checker.extract_links (c : Checker) (env : Env) (html_content current_url : String) :
    List String :=
  ((env.hrefs html_content).map (fun href => env.join current_url href)).filter
    (fun l => c.is_internal_link l)

/-- `check_single_link` (lines 85-117): navigate; success yields
`(200, "OK", not broken, "")`, any exception yields
`(0, "Navigation Error", broken, str(e))`.  Total by construction: no
exception escapes the probe. -/
def check_single_link (env : Env) (url parent_page : String) : LinkResult :=
  match env.nav url with
  | .ok _ =>
      { url := url, status := 200, status_text := "OK", is_broken := false,
        parent_page := parent_page, error_message := "" }
  | .error e =>
      { url := url, status := 0, status_text := "Navigation Error", is_broken := true,
        parent_page := parent_page, error_message := e }

/-- The mutable per-run state: `self.checked_links` and `self.results`. -/
structure CrawlState where
  checked_links : List String
  results : List LinkResult
deriving DecidableEq, Repr

/-- The probe loop of `check_links_on_page` (lines 136-148): for each found
link not yet in the visited set, add it to the visited set, record it as a new
link, probe it and append the result. -/
def probeLinks (env : Env) (parent : String) : List String → CrawlState → List String × CrawlState
  | [], st => ([], st)
  | link :: rest, st =>
    if link ∈ st.checked_links then probeLinks env parent rest st
    else
      let st1 : CrawlState :=
        ⟨link :: st.checked_links, st.results ++ [check_single_link env link parent]⟩
      let r := probeLinks env parent rest st1
      (link :: r.1, r.2)

/-- `check_links_on_page` (lines 119-153): navigate to the page (an exception
propagates to the caller — there is no handler here), extract the internal
links, probe the new ones. -/
def check_links_on_page (env : Env) (c : Checker) (st : CrawlState) (url : String) :
    Except String (List String × CrawlState) :=
  match env.nav url with
  | .error e => .error e
  | .ok html_content => .ok (probeLinks env url (c.extract_links env html_content url) st)

/-- The enqueue loop of `run_check` (lines 199-201): append each new link that
is in neither the visited set nor the queue. -/
def enqueueNew (checked_links : List String) : List String → List String → List String
  | [], queue => queue
  | link :: rest, queue =>
    if link ∈ checked_links ∨ link ∈ queue then enqueueNew checked_links rest queue
    else enqueueNew checked_links rest (queue ++ [link])

/-- The `while` loop of `run_check` (lines 187-207), with explicit fuel.
Returns the final state, the list of pages for which a content-crawl was
attempted (in order), and `some e` if a page navigation raised `e`, which in
the source propagates out of the loop and is caught by the handler at line
214 (so the loop ends but the collected results survive). -/
def runLoop (env : Env) (c : Checker) (fuel : Nat) (queue : List String)
    (checked_count : Nat) (st : CrawlState) : CrawlState × List String × Option String :=
  match fuel with
  | 0 => (st, [], none)
  | fuel + 1 =>
    match queue with
    | [] => (st, [], none)
    | current_url :: rest =>
      if checked_count < c.max_pages then
        if current_url ∈ st.checked_links then
          runLoop env c fuel rest checked_count st
        else
          let st1 : CrawlState := ⟨current_url :: st.checked_links, st.results⟩
          match check_links_on_page env c st1 current_url with
          | .error e => (st1, [current_url], some e)
          | .ok pr =>
            let new_links := pr.1
            let st2 := pr.2
            let queue2 := enqueueNew st2.checked_links new_links rest
            let r := runLoop env c fuel queue2 (checked_count + 1) st2
            (r.1, current_url :: r.2.1, r.2.2)
      else (st, [], none)

/-- Observable outcome of `run_check` (lines 155-221): the returned results,
the final visited set, the pages whose content-crawl was attempted, whether a
page navigation aborted the loop, and whether the sandbox session failed
(lines 217-219, returning `[]`). -/
structure RunOutcome where
  results : List LinkResult
  visited : List String
  attempted : List String
  pageError : Option String
  sessionError : Option String
deriving DecidableEq, Repr

/-- `run_check` (lines 155-221): on session failure return no results;
otherwise run the crawl loop starting from the seed. -/
def run_check (env : Env) (c : Checker) (fuel : Nat) : RunOutcome :=
  match env.session with
  | .error e => ⟨[], [], [], none, some e⟩
  | .ok _ =>
    let r := runLoop env c fuel [c.base_url] 0 ⟨[], []⟩
    ⟨r.1.results, r.1.checked_links, r.2.1, r.2.2, none⟩

/-- The exit-code decision of `main` (lines 344-350): exit 1 when the result
list is empty, else exit 0. -/
def mainExitCode (results : List LinkResult) : Nat :=
  if results.isEmpty then 1 else 0

/-! ### Report generation (lines 223-261) -/

/-- `"="*70` -/
def sep70 : String := String.mk (List.replicate 70 '=')

/-- `"-"*70` -/
def dash70 : String := String.mk (List.replicate 70 '-')

/-- The fixed success banner (line 251). -/
def noBrokenBanner : String := "No broken links found! ✓"

/-- The header lines of the report (lines 225-235). -/
def headerLines (c : Checker) (results : List LinkResult) : List String :=
  [sep70,
   "BROKEN LINK CHECK REPORT",
   sep70,
   "Base URL: " ++ c.base_url,
   "Provider: " ++ c.provider,
   "Total links checked: " ++ toString results.length,
   "Working links: " ++ toString (results.filter (fun r => !r.is_broken)).length,
   "Broken links: " ++ toString (results.filter (fun r => r.is_broken)).length,
   ""]

/-- The four lines emitted per broken result (lines 244-249). -/
def brokenBlock (r : LinkResult) : List String :=
  ["URL: " ++ r.url, "From: " ++ r.parent_page, "Error: " ++ r.error_message, dash70]

/-- `generate_report`, at the granularity of `report_lines` (lines 225-253). -/
def reportLines (c : Checker) (results : List LinkResult) : List String :=
  let broken := results.filter (fun r => r.is_broken)
  headerLines c results ++
    (if broken.isEmpty then [noBrokenBanner]
     else ["BROKEN LINKS:", dash70] ++ (broken.map brokenBlock).flatten) ++
    [sep70]

/-- `report_content = "\n".join(report_lines)` (line 254). -/
def generate_report (c : Checker) (results : List LinkResult) : String :=
  String.intercalate "\n" (reportLines c results)

/-- `generate_report` with an output destination (lines 256-261): the second
component is the text written to the file, the first the returned string. -/
def generate_report_to (c : Checker) (results : List LinkResult)
    (output_file : Option String) : String × Option String :=
  let report_content := generate_report c results
  (report_content, output_file.map (fun _ => report_content))

/-! ### Derived predicates used by the theorems -/

/-- Invariant of the crawl state: every recorded result's URL is in the
visited set, and no URL occurs twice among the results. -/
def ResultsInv (st : CrawlState) : Prop :=
  (∀ r ∈ st.results, r.url ∈ st.checked_links) ∧ (st.results.map (fun r => r.url)).Nodup

/-- The two shapes a recorded `LinkResult` can take, tied to the renderer's
outcome for its URL: the success shape `(200, "OK", not broken, "")` or the
failure shape `(0, "Navigation Error", broken, message)`. -/
def resultShape (env : Env) (r : LinkResult) : Bool :=
  match env.nav r.url with
  | .ok _ =>
      r.status == 200 && r.status_text == "OK" && r.is_broken == false && r.error_message == ""
  | .error e =>
      r.status == 0 && r.status_text == "Navigation Error" && r.is_broken == true &&
        r.error_message == e

/-! ### Concrete test fixtures -/

/-- Seed page linking to `/a`; the page of `/a` links to `/b`. -/
def envC1 : Env :=
  ⟨.ok (),
   fun u => if u == "https://e.com" then .ok "pg0"
            else if u == "https://e.com/a" then .ok "pgA" else .ok "pgB",
   fun h => if h == "pg0" then ["https://e.com/a"]
            else if h == "pgA" then ["https://e.com/b"] else [],
   fun _ href => href⟩

def cfgC1 : Checker := ⟨"https://e.com", "alibaba", 50⟩

/-- A site whose seed page renders fine but contains no links at all. -/
def envC2 : Env := ⟨.ok (), fun _ => .ok "empty page", fun _ => [], fun _ href => href⟩

def cfgC2 : Checker := ⟨"https://e.com", "alibaba", 50⟩

/-- Navigation to `/p1` raises; every other page loads fine. -/
def envC3 : Env :=
  ⟨.ok (),
   fun u => if u == "https://e.com/p1" then .error "timeout" else .ok "html",
   fun _ => [], fun _ href => href⟩

def cfgC3 : Checker := ⟨"https://e.com", "alibaba", 50⟩

/-- Navigation to `/bad` raises with a message; everything else loads. -/
def envC5w : Env :=
  ⟨.ok (),
   fun u => if u == "https://w.com/bad" then .error "net::ERR_FAILED" else .ok "html",
   fun _ => [], fun _ href => href⟩

/-- Seed page carrying three internal links, all reachable. -/
def envC6 : Env :=
  ⟨.ok (),
   fun u => if u == "https://e.com" then .ok "pg0" else .ok "leaf",
   fun h => if h == "pg0" then ["https://e.com/a", "https://e.com/b", "https://e.com/c"]
            else [],
   fun _ href => href⟩

/-- Page budget of one. -/
def cfgC6 : Checker := ⟨"https://e.com", "alibaba", 1⟩

/-- One broken result, for instantiating the report theorem. -/
def rC8 : LinkResult :=
  ⟨"https://e.com/x", 0, "Navigation Error", true, "https://e.com", "timeout"⟩

def cfgC8 : Checker := ⟨"https://e.com", "alibaba", 50⟩

/-- The link `/a` on the seed page raises with an empty message. -/
def envC10 : Env :=
  ⟨.ok (),
   fun u => if u == "https://e.com" then .ok "pg0" else .error "",
   fun h => if h == "pg0" then ["https://e.com/a"] else [],
   fun _ href => href⟩

def cfgC10 : Checker := ⟨"https://e.com", "alibaba", 50⟩

/-! ### Helper lemmas about the probe loop -/

theorem check_single_link_url (env : Env) (link parent : String) :
    (check_single_link env link parent).url = link := by
  unfold check_single_link
  cases env.nav link <;> rfl

theorem probeLinks_checked_subset (env : Env) (parent : String) :
    ∀ (links : List String) (st : CrawlState) (x : String),
      x ∈ st.checked_links → x ∈ (probeLinks env parent links st).2.checked_links := by
  intro links
  induction links with
  | nil => intro st x hx; simpa [probeLinks] using hx
  | cons l ls ih =>
    intro st x hx
    by_cases hm : l ∈ st.checked_links
    · simpa [probeLinks, hm] using ih st x hx
    · simp only [probeLinks, if_neg hm]
      exact ih _ x (List.mem_cons_of_mem _ hx)

theorem probeLinks_new_mem_checked (env : Env) (parent : String) :
    ∀ (links : List String) (st : CrawlState) (x : String),
      x ∈ (probeLinks env parent links st).1 →
      x ∈ (probeLinks env parent links st).2.checked_links := by
  intro links
  induction links with
  | nil => intro st x hx; simp [probeLinks] at hx
  | cons l ls ih =>
    intro st x hx
    by_cases hm : l ∈ st.checked_links
    · simp only [probeLinks, if_pos hm] at hx ⊢
      exact ih st x hx
    · simp only [probeLinks, if_neg hm] at hx ⊢
      rcases List.mem_cons.mp hx with hx | hx
      · subst hx
        exact probeLinks_checked_subset env parent ls _ x (List.mem_cons_self _ _)
      · exact ih _ x hx

theorem probeLinks_inv (env : Env) (parent : String) :
    ∀ (links : List String) (st : CrawlState),
      ResultsInv st → ResultsInv (probeLinks env parent links st).2 := by
  intro links
  induction links with
  | nil => intro st h; simpa [probeLinks] using h
  | cons l ls ih =>
    intro st h
    by_cases hm : l ∈ st.checked_links
    · simpa [probeLinks, hm] using ih st h
    · simp only [probeLinks, if_neg hm]
      apply ih
      obtain ⟨hcl, hnd⟩ := h
      constructor
      · intro r hr
        rcases List.mem_append.mp hr with hr | hr
        · exact List.mem_cons_of_mem _ (hcl r hr)
        · simp at hr
          subst hr
          simp [check_single_link_url]
      · have hnotin : l ∉ st.results.map (fun r => r.url) := by
          intro hmem
          rcases List.mem_map.mp hmem with ⟨r, hr, hru⟩
          exact hm (hru ▸ hcl r hr)
        simp only [List.map_append, List.map_cons, List.map_nil, check_single_link_url]
        rw [List.nodup_append]
        exact ⟨hnd, List.nodup_singleton _, by simpa [List.disjoint_right] using hnotin⟩

theorem probeLinks_ne (env : Env) (parent b : String) :
    ∀ (links : List String) (st : CrawlState),
      b ∈ st.checked_links → (∀ r ∈ st.results, r.url ≠ b) →
      ∀ r ∈ (probeLinks env parent links st).2.results, r.url ≠ b := by
  intro links
  induction links with
  | nil => intro st _ h r hr; exact h r (by simpa [probeLinks] using hr)
  | cons l ls ih =>
    intro st hb h
    by_cases hm : l ∈ st.checked_links
    · simp only [probeLinks, if_pos hm]
      exact ih st hb h
    · simp only [probeLinks, if_neg hm]
      apply ih
      · exact List.mem_cons_of_mem _ hb
      · intro r hr
        rcases List.mem_append.mp hr with hr | hr
        · exact h r hr
        · simp at hr
          subst hr
          rw [check_single_link_url]
          intro hlb
          exact hm (hlb ▸ hb)

theorem probeLinks_shape (env : Env) (parent : String) :
    ∀ (links : List String) (st : CrawlState),
      (∀ r ∈ st.results, resultShape env r = true) →
      ∀ r ∈ (probeLinks env parent links st).2.results, resultShape env r = true := by
  intro links
  induction links with
  | nil => intro st h r hr; exact h r (by simpa [probeLinks] using hr)
  | cons l ls ih =>
    intro st h
    by_cases hm : l ∈ st.checked_links
    · simp only [probeLinks, if_pos hm]
      exact ih st h
    · simp only [probeLinks, if_neg hm]
      apply ih
      intro r hr
      rcases List.mem_append.mp hr with hr | hr
      · exact h r hr
      · simp at hr
        subst hr
        cases hnav : env.nav l <;> simp [resultShape, check_single_link, hnav]

theorem enqueueNew_of_subset (checked : List String) :
    ∀ (ls queue : List String), (∀ l ∈ ls, l ∈ checked) →
      enqueueNew checked ls queue = queue := by
  intro ls
  induction ls with
  | nil => intro q _; rfl
  | cons l ls ih =>
    intro q h
    simp only [enqueueNew, if_pos (Or.inl (h l (List.mem_cons_self _ _)))]
    exact ih q (fun x hx => h x (List.mem_cons_of_mem _ hx))

/-! ### Helper lemmas about the crawl loop -/

theorem runLoop_inv (env : Env) (c : Checker) :
    ∀ (fuel : Nat) (queue : List String) (count : Nat) (st : CrawlState),
      ResultsInv st → ResultsInv (runLoop env c fuel queue count st).1 := by
  intro fuel
  induction fuel with
  | zero => intro queue count st h; simpa [runLoop] using h
  | succ n ih =>
    intro queue count st h
    cases queue with
    | nil => simpa [runLoop] using h
    | cons current rest =>
      by_cases hc : count < c.max_pages
      · by_cases hm : current ∈ st.checked_links
        · simp only [runLoop, hc, if_true, hm, if_pos]
          exact ih rest count st h
        · cases hnav : env.nav current with
          | error e =>
            simp only [runLoop, hc, if_true, if_neg hm, check_links_on_page, hnav]
            exact ⟨fun r hr => List.mem_cons_of_mem _ (h.1 r hr), h.2⟩
          | ok html =>
            simp only [runLoop, hc, if_true, if_neg hm, check_links_on_page, hnav]
            apply ih
            apply probeLinks_inv
            exact ⟨fun r hr => List.mem_cons_of_mem _ (h.1 r hr), h.2⟩
      · simp only [runLoop, hc, if_false]
        exact h

theorem runLoop_ne (env : Env) (c : Checker) (b : String) :
    ∀ (fuel : Nat) (queue : List String) (count : Nat) (st : CrawlState),
      b ∈ st.checked_links → (∀ r ∈ st.results, r.url ≠ b) →
      ∀ r ∈ (runLoop env c fuel queue count st).1.results, r.url ≠ b := by
  intro fuel
  induction fuel with
  | zero => intro queue count st _ h r hr; exact h r (by simpa [runLoop] using hr)
  | succ n ih =>
    intro queue count st hb h
    cases queue with
    | nil => intro r hr; exact h r (by simpa [runLoop] using hr)
    | cons current rest =>
      by_cases hc : count < c.max_pages
      · by_cases hm : current ∈ st.checked_links
        · simp only [runLoop, hc, if_true, hm, if_pos]
          exact ih rest count st hb h
        · cases hnav : env.nav current with
          | error e =>
            simp only [runLoop, hc, if_true, if_neg hm, check_links_on_page, hnav]
            exact h
          | ok html =>
            simp only [runLoop, hc, if_true, if_neg hm, check_links_on_page, hnav]
            apply ih
            · exact probeLinks_checked_subset env current _ _ b (List.mem_cons_of_mem _ hb)
            · exact probeLinks_ne env current b _ _ (List.mem_cons_of_mem _ hb) h
      · simp only [runLoop, hc, if_false]
        exact h

theorem runLoop_shape (env : Env) (c : Checker) :
    ∀ (fuel : Nat) (queue : List String) (count : Nat) (st : CrawlState),
      (∀ r ∈ st.results, resultShape env r = true) →
      ∀ r ∈ (runLoop env c fuel queue count st).1.results, resultShape env r = true := by
  intro fuel
  induction fuel with
  | zero => intro queue count st h r hr; exact h r (by simpa [runLoop] using hr)
  | succ n ih =>
    intro queue count st h
    cases queue with
    | nil => intro r hr; exact h r (by simpa [runLoop] using hr)
    | cons current rest =>
      by_cases hc : count < c.max_pages
      · by_cases hm : current ∈ st.checked_links
        · simp only [runLoop, hc, if_true, hm, if_pos]
          exact ih rest count st h
        · cases hnav : env.nav current with
          | error e =>
            simp only [runLoop, hc, if_true, if_neg hm, check_links_on_page, hnav]
            exact h
          | ok html =>
            simp only [runLoop, hc, if_true, if_neg hm, check_links_on_page, hnav]
            exact ih _ _ _ (probeLinks_shape env current _ _ h)
      · simp only [runLoop, hc, if_false]
        exact h

theorem runLoop_attempted_sub (env : Env) (c : Checker) :
    ∀ (fuel : Nat) (queue : List String) (count : Nat) (st : CrawlState),
      ∀ p ∈ (runLoop env c fuel queue count st).2.1, p ∈ queue := by
  intro fuel
  induction fuel with
  | zero => intro queue count st p hp; simp [runLoop] at hp
  | succ n ih =>
    intro queue count st p hp
    cases queue with
    | nil => simp [runLoop] at hp
    | cons current rest =>
      by_cases hc : count < c.max_pages
      · by_cases hm : current ∈ st.checked_links
        · simp only [runLoop, hc, if_true, hm, if_pos] at hp
          exact List.mem_cons_of_mem _ (ih rest count st p hp)
        · cases hnav : env.nav current with
          | error e =>
            simp only [runLoop, hc, if_true, if_neg hm, check_links_on_page, hnav] at hp
            simp at hp
            simp [hp]
          | ok html =>
            simp only [runLoop, hc, if_true, if_neg hm, check_links_on_page, hnav] at hp
            rcases List.mem_cons.mp hp with hp | hp
            · simp [hp]
            · have hq :
                  enqueueNew
                    (probeLinks env current
                      (c.extract_links env html current) ⟨current :: st.checked_links, st.results⟩).2.checked_links
                    (probeLinks env current
                      (c.extract_links env html current) ⟨current :: st.checked_links, st.results⟩).1
                    rest = rest :=
                enqueueNew_of_subset _ _ _
                  (fun l hl => probeLinks_new_mem_checked env current _ _ l hl)
              have hp2 := ih _ _ _ p hp
              rw [hq] at hp2
              exact List.mem_cons_of_mem _ hp2
      · simp only [runLoop, hc, if_false] at hp
        simp at hp

theorem runLoop_attempted_len (env : Env) (c : Checker) :
    ∀ (fuel : Nat) (queue : List String) (count : Nat) (st : CrawlState),
      (runLoop env c fuel queue count st).2.1.length ≤ c.max_pages - count := by
  intro fuel
  induction fuel with
  | zero => intro queue count st; simp [runLoop]
  | succ n ih =>
    intro queue count st
    cases queue with
    | nil => simp [runLoop]
    | cons current rest =>
      by_cases hc : count < c.max_pages
      · by_cases hm : current ∈ st.checked_links
        · simp only [runLoop, hc, if_true, hm, if_pos]
          exact ih rest count st
        · cases hnav : env.nav current with
          | error e =>
            simp only [runLoop, hc, if_true, if_neg hm, check_links_on_page, hnav]
            simp
            omega
          | ok html =>
            simp only [runLoop, hc, if_true, if_neg hm, check_links_on_page, hnav]
            have := ih
              (enqueueNew
                (probeLinks env current
                  (c.extract_links env html current) ⟨current :: st.checked_links, st.results⟩).2.checked_links
                (probeLinks env current
                  (c.extract_links env html current) ⟨current :: st.checked_links, st.results⟩).1
                rest)
              (count + 1)
              (probeLinks env current
                (c.extract_links env html current) ⟨current :: st.checked_links, st.results⟩).2
            simp only [List.length_cons]
            omega
      · simp only [runLoop, hc, if_false]
        simp

/-! ### Helper lemmas for the report builder -/

theorem append_ne_of_head_ne {cp cq : List Char} (p s q : String) (c d : Char)
    (hp : p.data = c :: cp) (hq : q.data = d :: cq) (hcd : c ≠ d) : p ++ s ≠ q := by
  intro h
  have h2 := congrArg String.data h
  rw [String.data_append, hp, hq] at h2
  simp at h2
  exact hcd h2.1

theorem banner_notin_header (c : Checker) (results : List LinkResult) :
    noBrokenBanner ∉ headerLines c results := by
  intro h
  simp only [headerLines, List.mem_cons, List.not_mem_nil, or_false] at h
  rcases h with h | h | h | h | h | h | h | h | h
  · exact absurd h (by decide)
  · exact absurd h (by decide)
  · exact absurd h (by decide)
  · exact (append_ne_of_head_ne "Base URL: " c.base_url noBrokenBanner 'B' 'N'
      rfl rfl (by decide)) h.symm
  · exact (append_ne_of_head_ne "Provider: " c.provider noBrokenBanner 'P' 'N'
      rfl rfl (by decide)) h.symm
  · exact (append_ne_of_head_ne "Total links checked: " _ noBrokenBanner 'T' 'N'
      rfl rfl (by decide)) h.symm
  · exact (append_ne_of_head_ne "Working links: " _ noBrokenBanner 'W' 'N'
      rfl rfl (by decide)) h.symm
  · exact (append_ne_of_head_ne "Broken links: " _ noBrokenBanner 'B' 'N'
      rfl rfl (by decide)) h.symm
  · exact absurd h (by decide)

theorem banner_notin_block (r : LinkResult) : noBrokenBanner ∉ brokenBlock r := by
  intro h
  simp only [brokenBlock, List.mem_cons, List.not_mem_nil, or_false] at h
  rcases h with h | h | h | h
  · exact (append_ne_of_head_ne "URL: " r.url noBrokenBanner 'U' 'N'
      rfl rfl (by decide)) h.symm
  · exact (append_ne_of_head_ne "From: " r.parent_page noBrokenBanner 'F' 'N'
      rfl rfl (by decide)) h.symm
  · exact (append_ne_of_head_ne "Error: " r.error_message noBrokenBanner 'E' 'N'
      rfl rfl (by decide)) h.symm
  · exact absurd h (by decide)

theorem length_filter_partition (l : List LinkResult) :
    (l.filter (fun r => !r.is_broken)).length + (l.filter (fun r => r.is_broken)).length
      = l.length := by
  induction l with
  | nil => rfl
  | cons a t ih =>
    cases hb : a.is_broken <;> simp [List.filter_cons, hb] <;> omega

/-! ### Claim theorems -/

/-- C1: the claim says every newly discovered internal link is both probed
and enqueued onto the frontier so that its own page is later crawled.  The
code probes it, but `check_links_on_page` has already added every new link to
`checked_links`, so the enqueue guard at line 200 is always false: nothing is
ever enqueued and no page other than the seed is ever content-crawled.  First
conjunct: in every run, every attempted page is the seed.  Remaining
conjuncts: a concrete two-level site where the discovered link `/a` is probed
(it gets a LinkResult) yet never crawled, so the link `/b` on its page is
never discovered. -/
theorem C1_discovered_links_never_enqueued :
    (∀ (env : Env) (c : Checker) (fuel : Nat),
      (run_check env c fuel).attempted.all (fun p => p == c.base_url) = true)
    ∧ (run_check envC1 cfgC1 10).results.map (fun r => r.url) = ["https://e.com/a"]
    ∧ (run_check envC1 cfgC1 10).attempted = ["https://e.com"]
    ∧ (run_check envC1 cfgC1 10).visited.contains "https://e.com/b" = false := by
  refine ⟨?_, by decide, by decide, by decide⟩
  intro env c fuel
  rw [List.all_eq_true]
  intro p hp
  unfold run_check at hp
  cases hs : env.session with
  | error e => rw [hs] at hp; simp at hp
  | ok u =>
    rw [hs] at hp
    simp only at hp
    have := runLoop_attempted_sub env c fuel [c.base_url] 0 ⟨[], []⟩ p hp
    simp at this
    simp [this]

/-- C2: the claim says a successfully completed zero-link run exits with code
0, distinguishable from an execution-layer failure.  Counterexample: a run
over a seed page with zero links completes (no page error, no session error),
produces zero results, and `main` (lines 344-350) exits with code 1 because
the exit code is computed solely from result-collection emptiness. -/
theorem C2_zero_link_run_exits_nonzero_cex :
    (run_check envC2 cfgC2 10).results = []
    ∧ (run_check envC2 cfgC2 10).pageError = none
    ∧ (run_check envC2 cfgC2 10).sessionError = none
    ∧ mainExitCode (run_check envC2 cfgC2 10).results = 1 := by
  exact ⟨by decide, by decide, by decide, by decide⟩

/-- C2 (amended): the exit code is a function of result-collection emptiness
alone: 0 exactly when at least one LinkResult was produced, 1 exactly when
the collection is empty — so a successful zero-link run is indistinguishable
by exit code from an execution-layer failure. -/
theorem C2_exit_code_from_emptiness :
    ∀ results : List LinkResult,
      (mainExitCode results = 0 ↔ results.isEmpty = false)
      ∧ (mainExitCode results = 1 ↔ results.isEmpty = true) := by
  intro results
  cases results <;> simp [mainExitCode]

/-- C3: the claim says that when navigation to a dequeued page fails the run
merely skips that page and continues crawling the remaining frontier.
Counterexample: with a frontier holding `/p1` and `/p2` and navigation to
`/p1` raising, the crawl loop (lines 187-207) terminates at once — `/p2` is
neither attempted nor visited, because `check_links_on_page` has no handler
and the exception lands in the orchestration handler at line 214. -/
theorem C3_remaining_frontier_abandoned_cex :
    (runLoop envC3 cfgC3 10 ["https://e.com/p1", "https://e.com/p2"] 0 ⟨[], []⟩).2.2
        = some "timeout"
    ∧ (runLoop envC3 cfgC3 10 ["https://e.com/p1", "https://e.com/p2"] 0 ⟨[], []⟩).2.1
        = ["https://e.com/p1"]
    ∧ ((runLoop envC3 cfgC3 10 ["https://e.com/p1", "https://e.com/p2"] 0
          ⟨[], []⟩).1.checked_links.contains "https://e.com/p2") = false := by
  exact ⟨by decide, by decide, by decide⟩

/-- C3 (amended): a navigation failure while loading a dequeued page for
extraction terminates the whole crawl loop: the page is added to the visited
set and counted as attempted, the loop returns the results collected so far
together with the error (which the orchestration layer catches and logs, so
the run still returns its partial results rather than raising), and no
further frontier page is crawled. -/
theorem C3_page_failure_ends_loop :
    ∀ (env : Env) (c : Checker) (fuel checked_count : Nat) (rest : List String)
      (st : CrawlState) (p e : String),
      p ∉ st.checked_links → checked_count < c.max_pages → env.nav p = .error e →
      runLoop env c (fuel + 1) (p :: rest) checked_count st =
        (⟨p :: st.checked_links, st.results⟩, [p], some e) := by
  intro env c fuel count rest st p e hp hcount hnav
  simp only [runLoop, hcount, if_true, if_neg hp, check_links_on_page, hnav]

/-- Witness for C3 (amended) at a concrete loop state. -/
theorem C3_page_failure_ends_loop_w :
    runLoop envC3 cfgC3 3 ["https://e.com/p1"] 0 ⟨[], []⟩ =
      (⟨["https://e.com/p1"], []⟩, ["https://e.com/p1"], some "timeout") :=
  C3_page_failure_ends_loop envC3 cfgC3 2 0 [] ⟨[], []⟩ "https://e.com/p1" "timeout"
    (by decide) (by decide) rfl

/-- C4: each distinct URL is probed at most once and the result collection
has exactly one LinkResult per probed URL: for every run, the URLs of the
results are pairwise distinct, so the number of results equals the number of
distinct URLs probed. -/
theorem C4_one_result_per_url :
    ∀ (env : Env) (c : Checker) (fuel : Nat),
      ((run_check env c fuel).results.map (fun r => r.url)).Nodup
      ∧ (run_check env c fuel).results.length =
          ((run_check env c fuel).results.map (fun r => r.url)).dedup.length := by
  intro env c fuel
  have hnd : ((run_check env c fuel).results.map (fun r => r.url)).Nodup := by
    unfold run_check
    cases hs : env.session with
    | error e => simp
    | ok u =>
      simp only
      exact (runLoop_inv env c fuel [c.base_url] 0 ⟨[], []⟩ ⟨by simp, by simp⟩).2
  exact ⟨hnd, by rw [List.Nodup.dedup hnd, List.length_map]⟩

/-- C5: the probe converts every renderer outcome into a LinkResult and never
propagates: a navigation exception with message `e` yields the Unreachable
shape carrying exactly `e`, and a navigation that completes yields the
Reachable shape regardless of the rendered content.  (`check_single_link` is
a total function of the navigation outcome, so no exception can escape it.) -/
theorem C5_probe_never_propagates :
    ∀ (env : Env) (url parent : String),
      (∀ e, env.nav url = .error e →
        check_single_link env url parent =
          ⟨url, 0, "Navigation Error", true, parent, e⟩)
      ∧ (∀ content, env.nav url = .ok content →
        check_single_link env url parent = ⟨url, 200, "OK", false, parent, ""⟩) := by
  intro env url parent
  constructor
  · intro e h
    simp [check_single_link, h]
  · intro content h
    simp [check_single_link, h]

/-- Witness for C5 at a concrete environment: a failing and a succeeding
navigation. -/
theorem C5_probe_never_propagates_w :
    check_single_link envC5w "https://w.com/bad" "https://w.com" =
      ⟨"https://w.com/bad", 0, "Navigation Error", true, "https://w.com", "net::ERR_FAILED"⟩
    ∧ check_single_link envC5w "https://w.com/ok" "https://w.com" =
      ⟨"https://w.com/ok", 200, "OK", false, "https://w.com", ""⟩ :=
  ⟨(C5_probe_never_propagates envC5w "https://w.com/bad" "https://w.com").1
      "net::ERR_FAILED" rfl,
   (C5_probe_never_propagates envC5w "https://w.com/ok" "https://w.com").2 "html" rfl⟩

/-- C6: with page budget N the engine attempts the content-crawl of at most N
pages (the stop condition is evaluated before each iteration), and a started
page is completed in full: with budget 1, all three links discovered on the
single (= Nth) crawled page are still probed. -/
theorem C6_page_budget :
    (∀ (env : Env) (c : Checker) (fuel : Nat),
      (run_check env c fuel).attempted.length ≤ c.max_pages)
    ∧ (run_check envC6 cfgC6 10).attempted = ["https://e.com"]
    ∧ (run_check envC6 cfgC6 10).results.length = 3 := by
  refine ⟨?_, by decide, by decide⟩
  intro env c fuel
  unfold run_check
  cases hs : env.session with
  | error e => simp
  | ok u =>
    simp only
    have := runLoop_attempted_len env c fuel [c.base_url] 0 ⟨[], []⟩
    omega

/-- C7: a URL is classified internal exactly when its netloc (host) equals
the base host or it has no netloc at all; the classifier is a pure host-string
comparison (a function, hence stable on equal inputs).  The concrete
conjuncts pin the behaviour of the netloc parser on representative URL
shapes. -/
theorem C7_internal_host_comparison :
    ∀ (c : Checker) (u : String),
      (c.is_internal_link u = true ↔ (netlocOf u = c.base_domain ∨ netlocOf u = ""))
      ∧ netlocOf "https://example.com/page?q=1#frag" = "example.com"
      ∧ netlocOf "/about" = ""
      ∧ netlocOf "#frag" = ""
      ∧ netlocOf "//cdn.example.com/x" = "cdn.example.com" := by
  intro c u
  refine ⟨?_, by decide, by decide, by decide, by decide⟩
  simp only [Checker.is_internal_link, Bool.or_eq_true, beq_iff_eq]
  exact or_comm

/-- C9: the seed URL is never probed and never receives a LinkResult: it is
added to the visited set (line 193) before its page is crawled, so even a
page linking back to the seed cannot cause a probe of it.  In every run, the
seed URL is absent from the result collection's URLs. -/
theorem C9_seed_unreported :
    ∀ (env : Env) (c : Checker) (fuel : Nat),
      ((run_check env c fuel).results.map (fun r => r.url)).contains c.base_url = false := by
  intro env c fuel
  have key : ∀ r ∈ (run_check env c fuel).results, r.url ≠ c.base_url := by
    unfold run_check
    cases hs : env.session with
    | error e => simp
    | ok u =>
      simp only
      cases fuel with
      | zero => simp [runLoop]
      | succ n =>
        by_cases hc : 0 < c.max_pages
        · have hm : c.base_url ∉ (⟨[], []⟩ : CrawlState).checked_links := by simp
          cases hnav : env.nav c.base_url with
          | error e2 =>
            simp only [runLoop, hc, if_true, if_neg hm, check_links_on_page, hnav]
            simp
          | ok html =>
            simp only [runLoop, hc, if_true, if_neg hm, check_links_on_page, hnav]
            apply runLoop_ne
            · exact probeLinks_checked_subset env c.base_url _ _ _
                (List.mem_cons_self _ _)
            · exact probeLinks_ne env c.base_url c.base_url _ _
                (List.mem_cons_self _ _) (by simp)
        · simp [runLoop, hc]
  rw [Bool.eq_false_iff]
  intro hcon
  obtain ⟨r, hr, hru⟩ := List.mem_map.mp (List.elem_iff.mp hcon)
  exact key r hr hru

/-- C10: the claim asserts the two result shapes with a non-degenerate
(non-empty) error message in the broken case.  Counterexample: a renderer
exception whose message is the empty string (Python allows `str(e) == ""`)
produces a broken LinkResult with an empty `error_message`. -/
theorem C10_degenerate_error_message_cex :
    ((run_check envC10 cfgC10 10).results.all
        (fun r => !r.is_broken || !(r.error_message == ""))) = false
    ∧ (run_check envC10 cfgC10 10).results =
        [⟨"https://e.com/a", 0, "Navigation Error", true, "https://e.com", ""⟩] := by
  exact ⟨by decide, by decide⟩

/-- C10 (amended): every LinkResult ever appended has exactly one of the two
shapes — `(200, "OK", not broken, "")` when navigation completed, or
`(0, "Navigation Error", broken, the renderer's message — possibly empty)`
when navigation raised; in particular `is_broken` holds iff `status = 0`. -/
theorem C10_result_shapes :
    ∀ (env : Env) (c : Checker) (fuel : Nat),
      ((run_check env c fuel).results.all (fun r => resultShape env r)) = true
      ∧ ((run_check env c fuel).results.all
          (fun r => r.is_broken == decide (r.status = 0))) = true := by
  intro env c fuel
  have hshape : ∀ r ∈ (run_check env c fuel).results, resultShape env r = true := by
    unfold run_check
    cases hs : env.session with
    | error e => simp
    | ok u =>
      simp only
      exact runLoop_shape env c fuel [c.base_url] 0 ⟨[], []⟩ (by simp)
  constructor
  · exact List.all_eq_true.mpr hshape
  · refine List.all_eq_true.mpr (fun r hr => ?_)
    have h := hshape r hr
    cases hnav : env.nav r.url with
    | error e =>
      simp [resultShape, hnav] at h
      obtain ⟨⟨⟨h1, h2⟩, h3⟩, h4⟩ := h
      simp [h1, h3]
    | ok v =>
      simp [resultShape, hnav] at h
      obtain ⟨⟨⟨h1, h2⟩, h3⟩, h4⟩ := h
      simp [h1, h3]

/-- C8: the report contains the total, working and broken counts (with
working + broken = total = collection length), lists every broken LinkResult
with its URL, parent page and error detail in discovery order (the broken
blocks appear in the order of the result collection), emits the fixed banner
exactly when zero broken results exist, and the text written to a supplied
output destination is exactly the returned report string. -/
theorem C8_report :
    ∀ (c : Checker) (results : List LinkResult),
      (results.filter (fun r => !r.is_broken)).length
          + (results.filter (fun r => r.is_broken)).length = results.length
      ∧ ("Total links checked: " ++ toString results.length) ∈ reportLines c results
      ∧ ("Working links: " ++ toString (results.filter (fun r => !r.is_broken)).length)
          ∈ reportLines c results
      ∧ ("Broken links: " ++ toString (results.filter (fun r => r.is_broken)).length)
          ∈ reportLines c results
      ∧ (noBrokenBanner ∈ reportLines c results
          ↔ results.filter (fun r => r.is_broken) = [])
      ∧ (results.filter (fun r => r.is_broken) ≠ [] →
          reportLines c results =
            headerLines c results ++ ["BROKEN LINKS:", dash70]
              ++ ((results.filter (fun r => r.is_broken)).map brokenBlock).flatten
              ++ [sep70])
      ∧ (∀ path : String,
          (generate_report_to c results (some path)).2 = some (generate_report c results)) := by
  intro c results
  have hmemHeader : ∀ x ∈ headerLines c results, x ∈ reportLines c results := by
    intro x hx
    simp only [reportLines]
    exact List.mem_append_left _ (List.mem_append_left _ hx)
  have hstruct : results.filter (fun r => r.is_broken) ≠ [] →
      reportLines c results =
        headerLines c results ++ ["BROKEN LINKS:", dash70]
          ++ ((results.filter (fun r => r.is_broken)).map brokenBlock).flatten
          ++ [sep70] := by
    intro hne
    have hie : (results.filter (fun r => r.is_broken)).isEmpty = false := by
      rw [Bool.eq_false_iff]
      intro hT
      exact hne (List.isEmpty_iff.mp hT)
    simp only [reportLines, hie, Bool.false_eq_true, if_false]
    simp [List.append_assoc]
  have hbanner : noBrokenBanner ∈ reportLines c results
      ↔ results.filter (fun r => r.is_broken) = [] := by
    constructor
    · intro hmem
      by_contra hne
      rw [hstruct hne] at hmem
      rcases List.mem_append.mp hmem with hmem | hmem
      · rcases List.mem_append.mp hmem with hmem | hmem
        · rcases List.mem_append.mp hmem with hmem | hmem
          · exact banner_notin_header c results hmem
          · simp only [List.mem_cons, List.not_mem_nil, or_false] at hmem
            rcases hmem with hmem | hmem <;> exact absurd hmem (by decide)
        · obtain ⟨l, hl, hbl⟩ := List.mem_flatten.mp hmem
          obtain ⟨r, _, hrl⟩ := List.mem_map.mp hl
          exact banner_notin_block r (hrl ▸ hbl)
      · simp only [List.mem_cons, List.not_mem_nil, or_false] at hmem
        exact absurd hmem (by decide)
    · intro hbe
      simp [reportLines, hbe]
  refine ⟨length_filter_partition results, ?_, ?_, ?_, hbanner, hstruct, fun path => rfl⟩
  · exact hmemHeader _ (by simp [headerLines])
  · exact hmemHeader _ (by simp [headerLines])
  · exact hmemHeader _ (by simp [headerLines])

/-- Witness for C8 at a concrete broken result: the broken-links section is
laid out block by block in result order. -/
theorem C8_report_w :
    reportLines cfgC8 [rC8] =
      headerLines cfgC8 [rC8] ++ ["BROKEN LINKS:", dash70]
        ++ (([rC8].filter (fun r => r.is_broken)).map brokenBlock).flatten ++ [sep70] :=
  (C8_report cfgC8 [rC8]).2.2.2.2.2.1 (by decide)
